import Mathlib

/-!
Verification development for the `ffsend` download action
(`src/api/src/action/download.rs` and `src/cli/src/cmd/cmd/download.rs`).

The Rust code is shallowly embedded: byte strings become `List Nat`
(each element a byte value), fallible operations become `Except`/`Option`,
and Rust panics (`expect`, `panic!`, `assert!`) become an explicit
`POut.panicked` outcome so that the difference between returning a typed
error and aborting is visible in the model.  External collaborators that
the source only calls (the AEAD cipher from openssl, the JSON parser from
serde, the key-derivation in `crypto::key_set`, the streaming writer in
the `reader` module) are not part of the two source files; where a claim
depends on them they are modelled from the specification, each such
definition carrying a `Modelled from the spec:` doc comment.
-/

namespace Ffsend

/-! ## Byte-string utilities

`crypto::b64` is not under `src/`; the spec only says the values are
base64.  `b64Decode` is a faithful base64 decoder over ASCII byte values:
it accepts both the standard and the URL-safe alphabet, works on unpadded
input (groups of 4, with a trailing group of 2 or 3 characters), rejects
a trailing group of 1, and decodes the empty string to the empty byte
string — the behaviour of the `base64` crate's decode. -/

/-- Modelled from the spec: value of one base64 alphabet character
(standard and URL-safe alphabets), `none` for any other byte. -/
def b64Val (b : Nat) : Option Nat :=
  if 65 ≤ b ∧ b ≤ 90 then some (b - 65)
  else if 97 ≤ b ∧ b ≤ 122 then some (b - 71)
  else if 48 ≤ b ∧ b ≤ 57 then some (b + 4)
  else if b = 43 ∨ b = 45 then some 62
  else if b = 47 ∨ b = 95 then some 63
  else none

/-- Modelled from the spec: reassemble bytes from a list of 6-bit base64
values, taken four at a time; a leftover group of one value is invalid. -/
def b64DecodeVals : List Nat → Option (List Nat)
  | [] => some []
  | [_] => none
  | [a, b] => some [a * 4 + b / 16]
  | [a, b, c] => some [a * 4 + b / 16, (b % 16) * 16 + c / 4]
  | a :: b :: c :: d :: rest =>
    match b64DecodeVals rest with
    | none => none
    | some tail =>
      some ([a * 4 + b / 16, (b % 16) * 16 + c / 4, (c % 4) * 64 + d] ++ tail)

/-- Modelled from the spec: `crypto::b64::decode` on the ASCII bytes of a
base64 string. -/
def b64Decode (s : List Nat) : Option (List Nat) :=
  match s.mapM b64Val with
  | none => none
  | some vals => b64DecodeVals vals

/-- Whether a byte is a UTF-8 continuation byte (`0x80..=0xBF`). -/
def utf8Cont (b : Nat) : Bool := 128 ≤ b && b ≤ 191

/-- UTF-8 validity of a byte string, as checked by Rust's
`String::from_utf8` (rejecting overlong encodings, surrogates and
values above U+10FFFF). -/
def utf8Valid : List Nat → Bool
  | [] => true
  | b :: r =>
    if b ≤ 127 then utf8Valid r
    else if 194 ≤ b && b ≤ 223 then
      match r with
      | c :: r2 => utf8Cont c && utf8Valid r2
      | [] => false
    else if b = 224 then
      match r with
      | c1 :: c2 :: r2 => (160 ≤ c1 && c1 ≤ 191) && utf8Cont c2 && utf8Valid r2
      | _ => false
    else if (225 ≤ b && b ≤ 236) || b = 238 || b = 239 then
      match r with
      | c1 :: c2 :: r2 => utf8Cont c1 && utf8Cont c2 && utf8Valid r2
      | _ => false
    else if b = 237 then
      match r with
      | c1 :: c2 :: r2 => (128 ≤ c1 && c1 ≤ 159) && utf8Cont c2 && utf8Valid r2
      | _ => false
    else if b = 240 then
      match r with
      | c1 :: c2 :: c3 :: r2 =>
        (144 ≤ c1 && c1 ≤ 191) && utf8Cont c2 && utf8Cont c3 && utf8Valid r2
      | _ => false
    else if 241 ≤ b && b ≤ 243 then
      match r with
      | c1 :: c2 :: c3 :: r2 =>
        utf8Cont c1 && utf8Cont c2 && utf8Cont c3 && utf8Valid r2
      | _ => false
    else if b = 244 then
      match r with
      | c1 :: c2 :: c3 :: r2 =>
        (128 ≤ c1 && c1 ≤ 143) && utf8Cont c2 && utf8Cont c3 && utf8Valid r2
      | _ => false
    else false

/-- Split a byte string at every occurrence of `sep` (Rust `str::split`
semantics: `n` separators yield `n + 1` segments, empty segments kept). -/
def splitByte (sep : Nat) : List Nat → List (List Nat)
  | [] => [[]]
  | b :: r =>
    if b = sep then [] :: splitByte sep r
    else
      match splitByte sep r with
      | s :: ss => (b :: s) :: ss
      | [] => [[b]]

/-- Rust `str::split_terminator` semantics: like `split`, but a trailing
empty segment (the input ends with the separator, or is empty) is
dropped. -/
def splitTerminator (sep : Nat) (l : List Nat) : List (List Nat) :=
  let s := splitByte sep l
  if s.getLast? = some [] then s.dropLast else s

/-! ## Error types (from `download.rs`) -/

/-- `AuthError` from `download.rs` (lines 329-337). -/
inductive AuthError
  | NonceReqFail
  | NonceReqStatusErr
  | MissingNonceHeader
  | EmptyNonceHeader
  | MalformedNonceHeader
  | MalformedNonce
deriving DecidableEq, Repr

/-- `MetaError` from `download.rs` (lines 339-350). -/
inductive MetaError
  | ComputeSignatureFail
  | NonceReqFail
  | NonceReqStatusErr
  | MissingNonceHeader
  | EmptyNonceHeader
  | MalformedNonceHeader
  | MalformedNonce
  | MalformedMetadata
  | DecryptMetadataFail
deriving DecidableEq, Repr

/-- `DownloadError` from `download.rs` (lines 300-327); payloads of
external error types (`IoError`, `ReqwestError`) are dropped as opaque. -/
inductive DownloadError
  | AuthError (e : AuthError)
  | MetaError (e : MetaError)
  | FileOpenError
  | NotAFile
  | FileError
  | EncryptionError
  | RequestError
  | DecodeError
deriving DecidableEq, Repr

/-! ## Nonce extraction (`fetch_auth_nonce`, lines 91-121, and the inline
nonce chain of `fetch_metadata`, lines 174-187)

A raw header value (hyper's `Raw`) is a list of lines, each a byte
string; `Raw::one()` yields the line only when there is exactly one. -/

/-- hyper `Raw::one()`: the single line of a raw header value, if the
header has exactly one line. -/
def rawOne : List (List Nat) → Option (List Nat)
  | [l] => some l
  | _ => none

/-- Rust iterator chain `skip(1).next()`: the second element, if any. -/
def skipOneNext (l : List (List Nat)) : Option (List Nat) := l.get? 1

/-- The header-to-nonce chain of `fetch_auth_nonce` (lines 107-120):
absent header, `one()` failure, UTF-8 validation, second
space-separated token via `split_terminator(" ").skip(1).next()`, then
base64 decoding — each failure mapped to its `AuthError` variant. -/
def authNonceExtract (h : Option (List (List Nat))) : Except AuthError (List Nat) :=
  match h with
  | none => .error .MissingNonceHeader
  | some raw =>
    match rawOne raw with
    | none => .error .EmptyNonceHeader
    | some line =>
      if utf8Valid line then
        match skipOneNext (splitTerminator 32 line) with
        | none => .error .MissingNonceHeader
        | some tok =>
          match b64Decode tok with
          | none => .error .MalformedNonce
          | some n => .ok n
      else .error .MalformedNonceHeader

/-- The header-to-nonce chain inlined in `fetch_metadata` (lines
174-187): byte-for-byte the same steps as `authNonceExtract`, with
failures mapped to the corresponding `MetaError` variants. -/
def metaNonceExtract (h : Option (List (List Nat))) : Except MetaError (List Nat) :=
  match h with
  | none => .error .MissingNonceHeader
  | some raw =>
    match rawOne raw with
    | none => .error .EmptyNonceHeader
    | some line =>
      if utf8Valid line then
        match skipOneNext (splitTerminator 32 line) with
        | none => .error .MissingNonceHeader
        | some tok =>
          match b64Decode tok with
          | none => .error .MalformedNonce
          | some n => .ok n
      else .error .MalformedNonceHeader

/-- The HTTP response seen by `fetch_auth_nonce`: whether `send()`
succeeded, whether the status was a success, and the raw
`WWW-Authenticate` header (absent, or a list of lines). -/
structure AuthResponse where
  sendOk : Bool
  statusSuccess : Bool
  header : Option (List (List Nat))
deriving DecidableEq

/-- `Download::fetch_auth_nonce` (lines 91-121): send failure maps to
`NonceReqFail`, non-success status to `NonceReqStatusErr`, then the
header chain of `authNonceExtract`. -/
def fetch_auth_nonce (r : AuthResponse) : Except AuthError (List Nat) :=
  if !r.sendOk then .error .NonceReqFail
  else if !r.statusSuccess then .error .NonceReqStatusErr
  else authNonceExtract r.header

/-- Variant-for-variant correspondence between the auth-stage and the
metadata-stage error classifications. -/
def authToMetaError : AuthError → MetaError
  | .NonceReqFail => .NonceReqFail
  | .NonceReqStatusErr => .NonceReqStatusErr
  | .MissingNonceHeader => .MissingNonceHeader
  | .EmptyNonceHeader => .EmptyNonceHeader
  | .MalformedNonceHeader => .MalformedNonceHeader
  | .MalformedNonce => .MalformedNonce

/-! ## Key material and external cryptography -/

/-- The protocol-fixed all-zero IV the key set starts with (12-byte GCM
nonce of zeroes). -/
def zeroIV : List Nat := List.replicate 12 0

/-- Modelled from the spec: `crypto::key_set::KeySet` is not under
`src/`.  Per spec §3/§4.1 it holds the three subkeys derived from the
secret plus a mutable IV slot; per §4.3 step 6 the IV used for the
metadata decryption call is the protocol-fixed all-zero sentinel, so the
slot initially holds `zeroIV` until `set_iv` stores the per-resource IV
from the decrypted metadata. -/
structure KeySet where
  authKey : List Nat
  metaKey : List Nat
  fileKey : List Nat
  iv : List Nat
deriving DecidableEq

/-- `KeySet::from(file)` (line 55): derive the three subkeys from the
file's secret (derivation abstracted; the subkeys are inputs), IV slot
at the all-zero sentinel. -/
def KeySet.derive (authKey metaKey fileKey : List Nat) : KeySet :=
  ⟨authKey, metaKey, fileKey, zeroIV⟩

/-- `KeySet::set_iv` (spec §4.1): store the per-resource IV. -/
def KeySet.set_iv (k : KeySet) (iv : List Nat) : KeySet :=
  { k with iv := iv }

/-- Modelled from the spec: the fixed AEAD cipher (`KeySet::cipher()`,
openssl AES-GCM) as an abstract pair of a tag function and a speculative
decryption function; parameters are key, IV, associated data and
ciphertext.  Decryption succeeds exactly when the supplied tag equals
the computed tag (spec §4.4, glossary). -/
structure AEAD where
  tagOf : List Nat → List Nat → List Nat → List Nat → List Nat
  decOf : List Nat → List Nat → List Nat → List Nat

/-- openssl `decrypt_aead` (as called at lines 382-389): check the tag,
and on success return the decrypted bytes. -/
def decrypt_aead (a : AEAD) (key : List Nat) (iv : Option (List Nat))
    (aad ct tag : List Nat) : Option (List Nat) :=
  let ivb := iv.getD []
  if a.tagOf key ivb aad ct = tag then some (a.decOf key ivb ct) else none

/-- Modelled from the spec: `file::metadata::Metadata` is not under
`src/`; per spec §3 it is the decrypted record holding the per-resource
IV (as bytes, via its `iv()` accessor) and descriptive fields. -/
structure Metadata where
  iv : List Nat
  name : List Nat
  mimeType : List Nat
deriving DecidableEq

/-- `MetadataResponse` (lines 357-362): the JSON envelope holding the
base64 `metadata` field (its ASCII bytes). -/
structure MetadataResponse where
  meta : List Nat
deriving DecidableEq

/-! ## Panics and observable events

Rust panics (`expect`, `panic!`, `assert!`) are modelled as a distinct
outcome so that aborting is distinguishable from returning an error. -/

deriving instance DecidableEq for Except

/-- Result of running a piece of code that may panic. -/
inductive POut (α : Type)
  | ok : α → POut α
  | panicked : String → POut α
deriving DecidableEq

/-- The protocol stages of the orchestrator (spec §4.6). -/
inductive Stage
  | auth
  | meta
  | fileOpen
  | bodyFetch
  | copyBody
  | verify
deriving DecidableEq, Repr

/-- Observable events of one download run: stage entry markers, file
system effects, the IV handed to the metadata AEAD call, and the
progress-reporter / verification calls inside `download`. -/
inductive Ev
  | stage : Stage → Ev
  | fileOpened : String → Ev
  | fileDeleted : String → Ev
  | usedMetaIV : List Nat → Ev
  | start : Nat → Ev
  | copied : Nat → Ev
  | finish : Ev
  | verifiedEv : Bool → Ev
deriving DecidableEq, Repr

/-- The stage markers of a trace, in order. -/
def stagesOf (tr : List Ev) : List Stage :=
  tr.filterMap fun e =>
    match e with
    | .stage s => some s
    | _ => none

/-- Whether a trace records any file deletion. -/
def anyFileDeleted (tr : List Ev) : Bool :=
  tr.any fun e =>
    match e with
    | .fileDeleted _ => true
    | _ => false

/-! ## Environment: everything the two source files receive from
collaborators (HTTP responses, the cipher, the JSON parser, the key
derivation output). -/

/-- One download's external environment. -/
structure Env where
  aead : AEAD
  parseMeta : List Nat → Option Metadata
  authKey : List Nat
  metaKey : List Nat
  fileKey : List Nat
  auth : AuthResponse
  metaSignFail : Bool
  metaSendOk : Bool
  metaStatusOk : Bool
  metaHeader : Option (List (List Nat))
  metaJson : Option MetadataResponse
  fileOpenOk : Bool
  bodySignFail : Bool
  bodySendOk : Bool
  bodyStatusOk : Bool
  contentLength : Option Nat
  bodyChunks : List (List Nat)

/-! ## Metadata stage (`MetadataResponse::decrypt_metadata`, lines
364-397, and `fetch_metadata` / `fetch_meta_nonce`, lines 123-197) -/

/-- `MetadataResponse::decrypt_metadata` (lines 370-396).  Every failure
path in the source is a panic: base64 failure panics via `expect`;
`raw.split_at(raw.len() - 16)` panics when the payload is shorter than
16 bytes (integer-underflow / out-of-bounds panic); a tag mismatch in
`decrypt_aead` panics via `expect`; a JSON parse failure panics via
`expect`.  The `Result` error channel of its signature is never used.
The trace records the IV handed to `decrypt_aead` (`key_set.iv()`). -/
def decrypt_metadata (a : AEAD) (parse : List Nat → Option Metadata)
    (resp : MetadataResponse) (key_set : KeySet) :
    POut (Except DownloadError Metadata) × List Ev :=
  match b64Decode resp.meta with
  | none => (.panicked "failed to decode metadata from server", [])
  | some raw =>
    if raw.length < 16 then
      (.panicked "attempt to subtract with overflow", [])
    else
      let encrypted := raw.take (raw.length - 16)
      let tag := raw.drop (raw.length - 16)
      match decrypt_aead a key_set.metaKey (some key_set.iv) [] encrypted tag with
      | none =>
        (.panicked "failed to decrypt metadata, invalid tag?", [.usedMetaIV key_set.iv])
      | some meta =>
        match parse meta with
        | none =>
          (.panicked "failed to parse decrypted metadata as JSON", [.usedMetaIV key_set.iv])
        | some m => (.ok (.ok m), [.usedMetaIV key_set.iv])

/-- `Download::fetch_metadata` (lines 149-197): signature computation,
request send, status check, the inline meta-nonce chain, JSON envelope
parse, then `decrypt_metadata` with its dead error channel mapped to
`DecryptMetadataFail`. -/
def fetch_metadata (env : Env) (key : KeySet) (auth_nonce : List Nat) :
    POut (Except MetaError (Metadata × List Nat)) × List Ev :=
  if env.metaSignFail then (.ok (.error .ComputeSignatureFail), [])
  else if !env.metaSendOk then (.ok (.error .NonceReqFail), [])
  else if !env.metaStatusOk then (.ok (.error .NonceReqStatusErr), [])
  else
    match metaNonceExtract env.metaHeader with
    | .error e => (.ok (.error e), [])
    | .ok nonce =>
      match env.metaJson with
      | none => (.ok (.error .MalformedMetadata), [])
      | some resp =>
        match decrypt_metadata env.aead env.parseMeta resp key with
        | (.panicked m, tr) => (.panicked m, tr)
        | (.ok (.error _), tr) => (.ok (.error .DecryptMetadataFail), tr)
        | (.ok (.ok metadata), tr) => (.ok (.ok (metadata, nonce)), tr)

/-- `Download::fetch_meta_nonce` (lines 129-141): run `fetch_metadata`,
then store the metadata's IV in the key set and return the meta nonce
(the updated key set is returned explicitly in place of the `&mut`
mutation). -/
def fetch_meta_nonce (env : Env) (key : KeySet) (auth_nonce : List Nat) :
    POut (Except MetaError (KeySet × List Nat)) × List Ev :=
  match fetch_metadata env key auth_nonce with
  | (.panicked m, tr) => (.panicked m, tr)
  | (.ok (.error e), tr) => (.ok (.error e), tr)
  | (.ok (.ok (metadata, meta_nonce)), tr) =>
    (.ok (.ok (key.set_iv metadata.iv, meta_nonce)), tr)

/-! ## Body stage (`create_file_reader`, lines 204-239; the streaming
writer; `download`, lines 272-296) -/

/-- `Download::create_file_reader` (lines 204-239): every failure path
is a panic (`expect` on the signature, `expect` on `send()`, `panic!` on
a non-success status, `expect` on a missing `Content-Length`); on
success the response stream and the content length are returned. -/
def create_file_reader (env : Env) : POut (List (List Nat) × Nat) :=
  if env.bodySignFail then .panicked "failed to compute file signature"
  else if !env.bodySendOk then
    .panicked "failed to fetch file, failed to send request"
  else if !env.bodyStatusOk then
    .panicked "failed to fetch file, request status is not successful"
  else
    match env.contentLength with
    | none => .panicked "failed to fetch file, missing content length header"
    | some len => .ok (env.bodyChunks, len)

/-- Modelled from the spec: `reader::EncryptedFileWriter` is not under
`src/`.  Per spec §4.4 it holds the declared total ciphertext length
(tag included), the file key and IV, and the ciphertext bytes pushed so
far; the trailing 16 bytes are withheld from decryption and compared
against the computed tag at the end. -/
structure EncryptedFileWriter where
  len : Nat
  fileKey : List Nat
  iv : List Nat
  bytes : List Nat
deriving DecidableEq

/-- `Download::create_file_writer` (lines 245-267): wrap the output file
in a writer carrying the declared length, the file key and the IV. -/
def create_file_writer (len : Nat) (key : KeySet) : EncryptedFileWriter :=
  ⟨len, key.fileKey, key.iv, []⟩

/-- Modelled from the spec (§4.4): one chunk write; fails when more
bytes are pushed than the declared length. -/
def writeChunk (w : EncryptedFileWriter) (c : List Nat) :
    Option EncryptedFileWriter :=
  if w.len < w.bytes.length + c.length then none
  else some { w with bytes := w.bytes ++ c }

/-- `io::copy` (line 285): push every chunk of the response stream
through the writer, failing on the first write error. -/
def copyAll (w : EncryptedFileWriter) : List (List Nat) → Option EncryptedFileWriter
  | [] => some w
  | c :: cs =>
    match writeChunk w c with
    | none => none
    | some w2 => copyAll w2 cs

/-- Modelled from the spec (§4.4): `verified()` is true only when the
declared length has been fully consumed and the tag computed over the
ciphertext (all bytes except the trailing 16) equals the trailing 16
bytes of the stream. -/
def verified (a : AEAD) (w : EncryptedFileWriter) : Bool :=
  decide (w.bytes.length = w.len) &&
    decide (a.tagOf w.fileKey w.iv [] (w.bytes.take (w.len - 16)) =
      w.bytes.drop (w.len - 16))

/-- `Download::download` (lines 272-296): `reporter.start(len)`, then
`io::copy` (panicking via `expect` on a copy error), then
`reporter.finish()`, then `assert!(writer.unwrap().verified())` which
panics when verification fails.  The trace records the reporter calls,
the bytes copied, and the verification outcome. -/
def download (a : AEAD) (chunks : List (List Nat)) (w : EncryptedFileWriter)
    (len : Nat) : POut Unit × List Ev :=
  match copyAll w chunks with
  | none =>
    (.panicked "failed to download and decrypt file", [.start len, .stage .copyBody])
  | some w2 =>
    let v := verified a w2
    if v then
      (.ok (), [.start len, .stage .copyBody, .copied w2.bytes.length, .finish,
        .stage .verify, .verifiedEv true])
    else
      (.panicked "downloaded and decrypted file could not be verified",
        [.start len, .stage .copyBody, .copied w2.bytes.length, .finish,
          .stage .verify, .verifiedEv false])

/-! ## Orchestrator (`Download::invoke`, lines 49-88) -/

/-- Outcome of `Download::invoke`: a clean return, a typed error return,
or a panic. -/
inductive Outcome
  | ok
  | failed : DownloadError → Outcome
  | panicked : String → Outcome
deriving DecidableEq, Repr

/-- Whether an outcome is a typed `Err` return. -/
def Outcome.isFailed : Outcome → Bool
  | .failed _ => true
  | _ => false

/-- `Download::invoke` (lines 49-88): derive the key set, fetch the auth
nonce (failure mapped to `DownloadError::AuthError`), fetch the meta
nonce and set the IV (failure mapped to `DownloadError::MetaError`),
open the hard-coded output file `"downloaded.zip"` (failure mapped to
`FileOpenError`), build the reader and writer, and run `download`. -/
def invoke (env : Env) : Outcome × List Ev :=
  let key := KeySet.derive env.authKey env.metaKey env.fileKey
  match fetch_auth_nonce env.auth with
  | .error e => (.failed (.AuthError e), [.stage .auth])
  | .ok auth_nonce =>
    match fetch_meta_nonce env key auth_nonce with
    | (.panicked m, tr) => (.panicked m, .stage .auth :: .stage .meta :: tr)
    | (.ok (.error e), tr) =>
      (.failed (.MetaError e), .stage .auth :: .stage .meta :: tr)
    | (.ok (.ok (key2, _meta_nonce)), tr) =>
      let pre := .stage .auth :: .stage .meta :: tr
      if env.fileOpenOk then
        let pre2 := pre ++ [.stage .fileOpen, .fileOpened "downloaded.zip"]
        match create_file_reader env with
        | .panicked m => (.panicked m, pre2 ++ [.stage .bodyFetch])
        | .ok (chunks, len) =>
          let writer := create_file_writer len key2
          match download env.aead chunks writer len with
          | (.ok _, dtr) => (.ok, pre2 ++ .stage .bodyFetch :: dtr)
          | (.panicked m, dtr) => (.panicked m, pre2 ++ .stage .bodyFetch :: dtr)
      else (.failed .FileOpenError, pre ++ [.stage .fileOpen])

/-! ## Concrete environments used by witnesses and counterexamples -/

/-- A toy AEAD whose tag is always sixteen zero bytes and whose
decryption is the identity; used only to instantiate theorems on
concrete inputs. -/
def aeadZero : AEAD :=
  ⟨fun _ _ _ _ => List.replicate 16 0, fun _ _ ct => ct⟩

/-- ASCII bytes of the header line `"send-v1 AAAA"` (a valid scheme
token followed by a valid base64 nonce decoding to three zero bytes). -/
def sendV1Line : List Nat :=
  [115, 101, 110, 100, 45, 118, 49, 32, 65, 65, 65, 65]

/-- ASCII bytes of `"AAAAAAAAAAAAAAAAAAAAAA"`: base64 of sixteen zero
bytes, an empty ciphertext followed by an all-zero 16-byte tag. -/
def metaB64 : List Nat := List.replicate 22 65

/-- A concrete decrypted-metadata record with per-resource IV `[9, 9]`. -/
def mdTest : Metadata := ⟨[9, 9], [], []⟩

/-- An environment in which every stage succeeds: valid nonce headers,
metadata that decrypts under `aeadZero`, a 16-byte body stream equal to
an all-zero tag, and a matching `Content-Length` of 16. -/
def envS : Env where
  aead := aeadZero
  parseMeta := fun _ => some mdTest
  authKey := [1]
  metaKey := [2]
  fileKey := [3]
  auth := ⟨true, true, some [sendV1Line]⟩
  metaSignFail := false
  metaSendOk := true
  metaStatusOk := true
  metaHeader := some [sendV1Line]
  metaJson := some ⟨metaB64⟩
  fileOpenOk := true
  bodySignFail := false
  bodySendOk := true
  bodyStatusOk := true
  contentLength := some 16
  bodyChunks := [List.replicate 16 0]

/-- `envS` with the last body byte flipped from `0` to `1`: the body
streams completely but its trailing tag no longer matches. -/
def envV : Env := { envS with bodyChunks := [List.replicate 15 0 ++ [1]] }

/-- `envS` with an AEAD whose computed tag is sixteen one bytes: the
metadata payload's all-zero tag does not verify. -/
def envM2 : Env :=
  { envS with aead := ⟨fun _ _ _ _ => List.replicate 16 1, fun _ _ ct => ct⟩ }

/-- `envS` with a metadata payload decoding to zero bytes — shorter than
the 16-byte tag. -/
def envM3 : Env := { envS with metaJson := some ⟨[]⟩ }

/-- `envS` with no `Content-Length` header on the body response. -/
def envM6 : Env := { envS with contentLength := none }

/-- `envS` whose body-fetch request fails to send. -/
def envC7 : Env := { envS with bodySendOk := false }

/-- `envS` with the auth-nonce header entirely absent. -/
def envA : Env := { envS with auth := ⟨true, true, none⟩ }

/-- An auth response whose header line is `"send-v1  x"` (two spaces):
the second space-separated token is the empty string. -/
def c5resp : AuthResponse :=
  ⟨true, true, some [[115, 101, 110, 100, 45, 118, 49, 32, 32, 120]]⟩

/-! ## Helper lemmas on traces and the copy loop -/

lemma stagesOf_append (a b : List Ev) :
    stagesOf (a ++ b) = stagesOf a ++ stagesOf b := by
  simp [stagesOf]

lemma decrypt_metadata_shape (a : AEAD) (parse : List Nat → Option Metadata)
    (resp : MetadataResponse) (k : KeySet) :
    ((decrypt_metadata a parse resp k).2 = [] ∨
      (decrypt_metadata a parse resp k).2 = [.usedMetaIV k.iv]) ∧
    (∀ r, (decrypt_metadata a parse resp k).1 = .ok r →
      (decrypt_metadata a parse resp k).2 = [.usedMetaIV k.iv]) := by
  unfold decrypt_metadata
  rcases hb : b64Decode resp.meta with _ | raw
  · simp
  · by_cases hl : raw.length < 16
    · simp [hl]
    · simp only [hl, if_false]
      rcases hd : decrypt_aead a k.metaKey (some k.iv) []
          (raw.take (raw.length - 16)) (raw.drop (raw.length - 16)) with _ | meta
      · simp [hd]
      · rcases hp : parse meta with _ | m
        · simp [hd, hp]
        · simp [hd, hp]

lemma fetch_metadata_shape (env : Env) (k : KeySet) (n : List Nat) :
    ((fetch_metadata env k n).2 = [] ∨
      (fetch_metadata env k n).2 = [.usedMetaIV k.iv]) ∧
    (∀ md mn, (fetch_metadata env k n).1 = .ok (.ok (md, mn)) →
      (fetch_metadata env k n).2 = [.usedMetaIV k.iv]) := by
  unfold fetch_metadata
  cases h1 : env.metaSignFail with
  | true => simp [h1]
  | false =>
  cases h2 : env.metaSendOk with
  | false => simp [h1, h2]
  | true =>
  cases h3 : env.metaStatusOk with
  | false => simp [h1, h2, h3]
  | true =>
  rcases hx : metaNonceExtract env.metaHeader with e | nonce
  · simp [h1, h2, h3, hx]
  rcases hj : env.metaJson with _ | resp
  · simp [h1, h2, h3, hx, hj]
  have hs := decrypt_metadata_shape env.aead env.parseMeta resp k
  rcases hd : decrypt_metadata env.aead env.parseMeta resp k with ⟨p, tr⟩
  rw [hd] at hs
  cases p with
  | panicked m => simpa [h1, h2, h3, hx, hj, hd] using hs.1
  | ok r =>
    cases r with
    | error e => simpa [h1, h2, h3, hx, hj, hd] using hs.1
    | ok md =>
      have h2tr := hs.2 (.ok md) rfl
      constructor
      · simpa [h1, h2, h3, hx, hj, hd] using hs.1
      · intro md2 mn h
        simpa [h1, h2, h3, hx, hj, hd] using h2tr

lemma fetch_meta_nonce_shape (env : Env) (k : KeySet) (n : List Nat) :
    ((fetch_meta_nonce env k n).2 = [] ∨
      (fetch_meta_nonce env k n).2 = [.usedMetaIV k.iv]) ∧
    (∀ k2 mn, (fetch_meta_nonce env k n).1 = .ok (.ok (k2, mn)) →
      (fetch_meta_nonce env k n).2 = [.usedMetaIV k.iv]) := by
  unfold fetch_meta_nonce
  have hs := fetch_metadata_shape env k n
  rcases hm : fetch_metadata env k n with ⟨p, tr⟩
  rw [hm] at hs
  cases p with
  | panicked m => simpa [hm] using hs.1
  | ok r =>
    cases r with
    | error e => simpa [hm] using hs.1
    | ok pr =>
      constructor
      · simpa [hm] using hs.1
      · intro k2 mn h
        simpa [hm] using hs.2 pr.1 pr.2 rfl

lemma copyAll_bytes (cs : List (List Nat)) (w w2 : EncryptedFileWriter)
    (h : copyAll w cs = some w2) :
    w2.bytes = w.bytes ++ cs.flatten ∧ w2.len = w.len ∧
    w2.fileKey = w.fileKey ∧ w2.iv = w.iv := by
  induction cs generalizing w with
  | nil =>
    unfold copyAll at h
    cases h
    simp
  | cons c cs ih =>
    rw [copyAll] at h
    rcases hw : writeChunk w c with _ | w1
    · rw [hw] at h; simp at h
    · rw [hw] at h
      have hrec := ih w1 h
      unfold writeChunk at hw
      split at hw
      · simp at hw
      · injection hw with hw1
        subst hw1
        simp only [] at hrec
        refine ⟨?_, hrec.2.1, hrec.2.2.1, hrec.2.2.2⟩
        rw [hrec.1]
        simp [List.append_assoc]

lemma download_spec (a : AEAD) (chunks : List (List Nat))
    (w : EncryptedFileWriter) (len : Nat) :
    (copyAll w chunks = none ∧
      download a chunks w len =
        (.panicked "failed to download and decrypt file",
          [.start len, .stage .copyBody])) ∨
    (∃ w2, copyAll w chunks = some w2 ∧ verified a w2 = true ∧
      download a chunks w len = (.ok (),
        [.start len, .stage .copyBody, .copied w2.bytes.length, .finish,
          .stage .verify, .verifiedEv true])) ∨
    (∃ w2, copyAll w chunks = some w2 ∧ verified a w2 = false ∧
      download a chunks w len =
        (.panicked "downloaded and decrypted file could not be verified",
          [.start len, .stage .copyBody, .copied w2.bytes.length, .finish,
            .stage .verify, .verifiedEv false])) := by
  rcases hc : copyAll w chunks with _ | w2
  · exact Or.inl ⟨rfl, by unfold download; rw [hc]⟩
  · cases hv : verified a w2 with
    | true =>
      exact Or.inr (Or.inl ⟨w2, rfl, hv, by unfold download; rw [hc]; simp [hv]⟩)
    | false =>
      exact Or.inr (Or.inr ⟨w2, rfl, hv, by unfold download; rw [hc]; simp [hv]⟩)

lemma create_file_reader_ok (env : Env) (pr : List (List Nat) × Nat)
    (h : create_file_reader env = .ok pr) :
    env.contentLength = some pr.2 ∧ pr.1 = env.bodyChunks := by
  unfold create_file_reader at h
  split at h
  · simp at h
  · split at h
    · simp at h
    · split at h
      · simp at h
      · split at h
        · simp at h
        · next len heq =>
          injection h with h1
          subst h1
          exact ⟨heq, rfl⟩

/-- Exhaustive case analysis of `Download::invoke`: every run ends in
one of eight terminal shapes, each with its exact outcome and trace. -/
lemma invoke_cases (env : Env) :
    (∃ e, invoke env = (.failed (.AuthError e), [.stage .auth])) ∨
    (∃ m tr, (tr = [] ∨ tr = [.usedMetaIV zeroIV]) ∧
      invoke env = (.panicked m, .stage .auth :: .stage .meta :: tr)) ∨
    (∃ e tr, (tr = [] ∨ tr = [.usedMetaIV zeroIV]) ∧
      invoke env = (.failed (.MetaError e), .stage .auth :: .stage .meta :: tr)) ∨
    (invoke env = (.failed .FileOpenError,
      [.stage .auth, .stage .meta, .usedMetaIV zeroIV, .stage .fileOpen])) ∨
    (∃ m, invoke env = (.panicked m,
      [.stage .auth, .stage .meta, .usedMetaIV zeroIV, .stage .fileOpen,
        .fileOpened "downloaded.zip", .stage .bodyFetch])) ∨
    (∃ len k2, env.contentLength = some len ∧
      copyAll (create_file_writer len k2) env.bodyChunks = none ∧
      invoke env = (.panicked "failed to download and decrypt file",
        [.stage .auth, .stage .meta, .usedMetaIV zeroIV, .stage .fileOpen,
          .fileOpened "downloaded.zip", .stage .bodyFetch, .start len,
          .stage .copyBody])) ∨
    (∃ len k2 w2, env.contentLength = some len ∧
      copyAll (create_file_writer len k2) env.bodyChunks = some w2 ∧
      verified env.aead w2 = true ∧
      invoke env = (.ok,
        [.stage .auth, .stage .meta, .usedMetaIV zeroIV, .stage .fileOpen,
          .fileOpened "downloaded.zip", .stage .bodyFetch, .start len,
          .stage .copyBody, .copied w2.bytes.length, .finish, .stage .verify,
          .verifiedEv true])) ∨
    (∃ len k2 w2, env.contentLength = some len ∧
      copyAll (create_file_writer len k2) env.bodyChunks = some w2 ∧
      verified env.aead w2 = false ∧
      invoke env = (.panicked "downloaded and decrypted file could not be verified",
        [.stage .auth, .stage .meta, .usedMetaIV zeroIV, .stage .fileOpen,
          .fileOpened "downloaded.zip", .stage .bodyFetch, .start len,
          .stage .copyBody, .copied w2.bytes.length, .finish, .stage .verify,
          .verifiedEv false])) := by
  rcases ha : fetch_auth_nonce env.auth with e | n
  · exact Or.inl ⟨e, by simp only [invoke, ha]⟩
  · have hms := fetch_meta_nonce_shape env
      (KeySet.derive env.authKey env.metaKey env.fileKey) n
    rcases hm : fetch_meta_nonce env
        (KeySet.derive env.authKey env.metaKey env.fileKey) n with ⟨p, tr⟩
    rw [hm] at hms
    have htr : tr = [] ∨ tr = [.usedMetaIV zeroIV] := hms.1
    cases p with
    | panicked m =>
      exact Or.inr (Or.inl ⟨m, tr, htr, by simp only [invoke, ha, hm]⟩)
    | ok r =>
      cases r with
      | error e =>
        exact Or.inr (Or.inr (Or.inl ⟨e, tr, htr,
          by simp only [invoke, ha, hm]⟩))
      | ok pr =>
        obtain ⟨k2, mn⟩ := pr
        have htr2 : tr = [.usedMetaIV zeroIV] := hms.2 k2 mn rfl
        subst htr2
        cases hf : env.fileOpenOk with
        | false =>
          refine Or.inr (Or.inr (Or.inr (Or.inl ?_)))
          simp [invoke, ha, hm, hf]
        | true =>
          rcases hr : create_file_reader env with pr2 | m
          · obtain ⟨hcl, hch⟩ := create_file_reader_ok env pr2 hr
            obtain ⟨chunks, len⟩ := pr2
            simp only [] at hcl hch
            subst hch
            rcases download_spec env.aead env.bodyChunks
                (create_file_writer len k2) len with
              ⟨hc, hd⟩ | ⟨w2, hc, hv, hd⟩ | ⟨w2, hc, hv, hd⟩
            · refine Or.inr (Or.inr (Or.inr (Or.inr (Or.inr (Or.inl
                ⟨len, k2, hcl, hc, ?_⟩)))))
              simp [invoke, ha, hm, hf, hr, hd]
            · refine Or.inr (Or.inr (Or.inr (Or.inr (Or.inr (Or.inr (Or.inl
                ⟨len, k2, w2, hcl, hc, hv, ?_⟩))))))
              simp [invoke, ha, hm, hf, hr, hd]
            · refine Or.inr (Or.inr (Or.inr (Or.inr (Or.inr (Or.inr (Or.inr
                ⟨len, k2, w2, hcl, hc, hv, ?_⟩))))))
              simp [invoke, ha, hm, hf, hr, hd]
          · refine Or.inr (Or.inr (Or.inr (Or.inr (Or.inl ⟨m, ?_⟩))))
            simp [invoke, ha, hm, hf, hr]

/-! ## Claim theorems -/

/-- C1: at `envV` the body has been fully streamed and decrypted but the
trailing tag does not verify; the orchestrator does not return a typed
failure — it aborts via the `assert!` at line 295 — and the plaintext
file it opened (`downloaded.zip`) is never deleted or quarantined (the
source's own TODO at line 294: "delete the file if verification
failed"). -/
theorem c1_tag_failure_panics_and_output_not_deleted :
    (invoke envV).1 =
      .panicked "downloaded and decrypted file could not be verified" ∧
    Ev.verifiedEv false ∈ (invoke envV).2 ∧
    Ev.fileOpened "downloaded.zip" ∈ (invoke envV).2 ∧
    anyFileDeleted (invoke envV).2 = false ∧
    (invoke envV).1.isFailed = false := by
  decide

/-- C2: at `envM2` the metadata AEAD tag does not verify under the
metadata key; `decrypt_metadata` aborts via the `expect` at line 389
("failed to decrypt metadata, invalid tag?") instead of returning
`MetaError::DecryptMetadataFail` to the caller (the variant and the
`map_err` at line 194 are dead code). -/
theorem c2_meta_tag_mismatch_panics_not_typed_error :
    (fetch_meta_nonce envM2 (KeySet.derive [1] [2] [3]) []).1 =
      .panicked "failed to decrypt metadata, invalid tag?" ∧
    (fetch_meta_nonce envM2 (KeySet.derive [1] [2] [3]) []).1 ≠
      .ok (.error MetaError.DecryptMetadataFail) ∧
    (invoke envM2).1 = .panicked "failed to decrypt metadata, invalid tag?" ∧
    (invoke envM2).1.isFailed = false := by
  decide

/-- C3: at `envM3` the base64-decoded metadata payload is empty, shorter
than the 16-byte tag; `raw.split_at(raw.len() - 16)` at line 376 panics
on the length underflow instead of failing with a malformed-metadata
error. -/
theorem c3_short_payload_panics_not_malformed_error :
    (decrypt_metadata envM3.aead envM3.parseMeta ⟨[]⟩
        (KeySet.derive [1] [2] [3])).1 =
      .panicked "attempt to subtract with overflow" ∧
    (fetch_metadata envM3 (KeySet.derive [1] [2] [3]) []).1 =
      .panicked "attempt to subtract with overflow" ∧
    (fetch_metadata envM3 (KeySet.derive [1] [2] [3]) []).1 ≠
      .ok (.error MetaError.MalformedMetadata) := by
  decide

/-- C4: every IV handed to the metadata AEAD decryption during
`fetch_meta_nonce` on a freshly derived key set is the protocol-fixed
all-zero sentinel — never the per-resource IV, which is stored by
`set_iv` only after the metadata has been decrypted. -/
theorem c4_metadata_decrypt_uses_zero_iv (env : Env)
    (a m f auth_nonce iv : List Nat)
    (hmem : Ev.usedMetaIV iv ∈
      (fetch_meta_nonce env (KeySet.derive a m f) auth_nonce).2) :
    iv = zeroIV := by
  rcases (fetch_meta_nonce_shape env (KeySet.derive a m f) auth_nonce).1 with
    h | h <;> rw [h] at hmem
  · simp at hmem
  · simpa [KeySet.derive] using hmem

theorem c4_metadata_decrypt_uses_zero_iv_witness :
    Ev.usedMetaIV zeroIV ∈
      (fetch_meta_nonce envS (KeySet.derive [1] [2] [3]) []).2 ∧
    zeroIV = zeroIV :=
  ⟨by decide,
    c4_metadata_decrypt_uses_zero_iv envS [1] [2] [3] [] zeroIV (by decide)⟩

/-- C5 (counterexample): the claim says nonce extraction never silently
returns empty bytes, but a header line `"send-v1  x"` (two consecutive
spaces after the scheme) has the empty string as its second
space-separated token, which base64-decodes to zero bytes and is
returned as success. -/
theorem c5_counterexample_empty_token_yields_empty_nonce :
    fetch_auth_nonce c5resp = .ok [] := by
  decide

/-- C5 (amended): on a sent request with a success status, nonce
extraction classifies each failure with its distinct error — absent
header `MissingNonceHeader`, a raw header without exactly one line
`EmptyNonceHeader`, non-UTF8 line `MalformedNonceHeader`, missing
second space-separated token `MissingNonceHeader`, non-base64 second
token `MalformedNonce` — and otherwise returns the decoded bytes
(which are empty when the second token is the empty string); the
extraction is a total function and never panics. -/
theorem c5_nonce_error_classification (r : AuthResponse)
    (hs : r.sendOk = true) (ht : r.statusSuccess = true) :
    (r.header = none → fetch_auth_nonce r = .error .MissingNonceHeader) ∧
    (∀ raw, r.header = some raw → rawOne raw = none →
      fetch_auth_nonce r = .error .EmptyNonceHeader) ∧
    (∀ raw line, r.header = some raw → rawOne raw = some line →
      utf8Valid line = false →
      fetch_auth_nonce r = .error .MalformedNonceHeader) ∧
    (∀ raw line, r.header = some raw → rawOne raw = some line →
      utf8Valid line = true → skipOneNext (splitTerminator 32 line) = none →
      fetch_auth_nonce r = .error .MissingNonceHeader) ∧
    (∀ raw line tok, r.header = some raw → rawOne raw = some line →
      utf8Valid line = true → skipOneNext (splitTerminator 32 line) = some tok →
      b64Decode tok = none → fetch_auth_nonce r = .error .MalformedNonce) ∧
    (∀ raw line tok n, r.header = some raw → rawOne raw = some line →
      utf8Valid line = true → skipOneNext (splitTerminator 32 line) = some tok →
      b64Decode tok = some n → fetch_auth_nonce r = .ok n) := by
  have hfe : fetch_auth_nonce r = authNonceExtract r.header := by
    simp [fetch_auth_nonce, hs, ht]
  refine ⟨fun h => ?_, fun raw h1 h2 => ?_, fun raw line h1 h2 h3 => ?_,
    fun raw line h1 h2 h3 h4 => ?_, fun raw line tok h1 h2 h3 h4 h5 => ?_,
    fun raw line tok n h1 h2 h3 h4 h5 => ?_⟩
  · rw [hfe, h]; rfl
  · rw [hfe, h1]; simp [authNonceExtract, h2]
  · rw [hfe, h1]; simp [authNonceExtract, h2, h3]
  · rw [hfe, h1]; simp [authNonceExtract, h2, h3, h4]
  · rw [hfe, h1]; simp [authNonceExtract, h2, h3, h4, h5]
  · rw [hfe, h1]; simp [authNonceExtract, h2, h3, h4, h5]

theorem c5_nonce_error_classification_witness :
    fetch_auth_nonce ⟨true, true, none⟩ = .error .MissingNonceHeader :=
  (c5_nonce_error_classification ⟨true, true, none⟩ rfl rfl).1 rfl

/-- C6: at `envM6` (missing `Content-Length`) and at send-failure and
bad-status variants of `envS`, the body-fetch stage aborts through the
`expect`/`panic!` calls of `create_file_reader` (lines 213-236) — no
typed `BodyError`-style failure is returned (no such variant exists in
`DownloadError`). -/
theorem c6_body_stage_failures_panic_not_typed :
    create_file_reader envM6 =
      .panicked "failed to fetch file, missing content length header" ∧
    (invoke envM6).1 =
      .panicked "failed to fetch file, missing content length header" ∧
    (invoke envM6).1.isFailed = false ∧
    create_file_reader { envS with bodySendOk := false } =
      .panicked "failed to fetch file, failed to send request" ∧
    create_file_reader { envS with bodyStatusOk := false } =
      .panicked "failed to fetch file, request status is not successful" := by
  decide

/-- C7 (counterexample): at `envC7` the body-fetch request fails to
send; the run terminates by panic, not by a `Failed` outcome carrying
the originating stage, refuting the claim that a failure at any stage
transitions to the terminal `Failed` outcome. -/
theorem c7_counterexample_body_failure_panics_not_failed :
    (invoke envC7).1 = .panicked "failed to fetch file, failed to send request" ∧
    (invoke envC7).1.isFailed = false := by
  decide

/-- C7 (amended): the orchestrator runs the stages in strict linear
order — the stage trace of every run is a duplicate-free prefix of
auth, meta, fileOpen, bodyFetch, copyBody, verify, so no stage is
retried or re-entered and nothing runs after a failure; a failure in
the auth stage yields the terminal `Failed(AuthError)` with only the
auth stage run, and a failure in the metadata stage yields the terminal
`Failed(MetaError)` with only auth and meta run; failures in the body
stages terminate by panic instead (see the counterexample). -/
theorem c7_linear_stage_machine (env : Env) :
    (∃ rest, stagesOf (invoke env).2 ++ rest =
      [Stage.auth, .meta, .fileOpen, .bodyFetch, .copyBody, .verify]) ∧
    (stagesOf (invoke env).2).Nodup ∧
    (∀ e, fetch_auth_nonce env.auth = .error e →
      invoke env = (.failed (.AuthError e), [.stage .auth])) ∧
    (∀ n e tr, fetch_auth_nonce env.auth = .ok n →
      fetch_meta_nonce env (KeySet.derive env.authKey env.metaKey env.fileKey) n =
        (.ok (.error e), tr) →
      invoke env = (.failed (.MetaError e), .stage .auth :: .stage .meta :: tr)) ∧
    (∀ e, (invoke env).1 = .failed (.AuthError e) →
      stagesOf (invoke env).2 = [.auth]) ∧
    (∀ e, (invoke env).1 = .failed (.MetaError e) →
      stagesOf (invoke env).2 = [.auth, .meta]) := by
  have hauth : ∀ e, fetch_auth_nonce env.auth = .error e →
      invoke env = (.failed (.AuthError e), [.stage .auth]) :=
    fun e h => by simp only [invoke, h]
  have hmeta : ∀ n e tr, fetch_auth_nonce env.auth = .ok n →
      fetch_meta_nonce env (KeySet.derive env.authKey env.metaKey env.fileKey) n =
        (.ok (.error e), tr) →
      invoke env = (.failed (.MetaError e), .stage .auth :: .stage .meta :: tr) :=
    fun n e tr hn hm => by simp only [invoke, hn, hm]
  rcases invoke_cases env with
      ⟨e, hi⟩ | ⟨m, tr, htr, hi⟩ | ⟨e, tr, htr, hi⟩ | hi | ⟨m, hi⟩ |
      ⟨len, k2, hcl, hc, hi⟩ | ⟨len, k2, w2, hcl, hc, hv, hi⟩ |
      ⟨len, k2, w2, hcl, hc, hv, hi⟩
  · exact ⟨by rw [hi]; exact ⟨_, rfl⟩,
      by rw [hi]; exact (by decide : ([Stage.auth]).Nodup), hauth, hmeta,
      fun e2 h2 => by rw [hi]; rfl,
      fun e2 h2 => by rw [hi] at h2; simp at h2⟩
  · have hst : stagesOf (.stage .auth :: .stage .meta :: tr) =
        [Stage.auth, Stage.meta] := by
      rcases htr with rfl | rfl <;> rfl
    exact ⟨by rw [hi]; exact ⟨[Stage.fileOpen, Stage.bodyFetch,
        Stage.copyBody, Stage.verify], by rw [show stagesOf
        ((Outcome.panicked m, Ev.stage .auth :: Ev.stage .meta :: tr)).2 =
        [Stage.auth, Stage.meta] from hst]; rfl⟩,
      by rw [hi]; exact (hst ▸ (by decide : ([Stage.auth, Stage.meta]).Nodup)),
      hauth, hmeta,
      fun e2 h2 => by rw [hi] at h2; simp at h2,
      fun e2 h2 => by rw [hi] at h2; simp at h2⟩
  · have hst : stagesOf (.stage .auth :: .stage .meta :: tr) =
        [Stage.auth, Stage.meta] := by
      rcases htr with rfl | rfl <;> rfl
    exact ⟨by rw [hi]; exact ⟨[Stage.fileOpen, Stage.bodyFetch,
        Stage.copyBody, Stage.verify], by rw [show stagesOf
        ((Outcome.failed (.MetaError e), Ev.stage .auth :: Ev.stage .meta :: tr)).2 =
        [Stage.auth, Stage.meta] from hst]; rfl⟩,
      by rw [hi]; exact (hst ▸ (by decide : ([Stage.auth, Stage.meta]).Nodup)),
      hauth, hmeta,
      fun e2 h2 => by rw [hi] at h2; simp at h2,
      fun e2 h2 => by rw [hi]; exact hst⟩
  · exact ⟨by rw [hi]; exact ⟨_, rfl⟩,
      by rw [hi]; exact (by decide :
        ([Stage.auth, Stage.meta, Stage.fileOpen]).Nodup), hauth, hmeta,
      fun e2 h2 => by rw [hi] at h2; simp at h2,
      fun e2 h2 => by rw [hi] at h2; simp at h2⟩
  · exact ⟨by rw [hi]; exact ⟨_, rfl⟩,
      by rw [hi]; exact (by decide :
        ([Stage.auth, Stage.meta, Stage.fileOpen, Stage.bodyFetch]).Nodup),
      hauth, hmeta,
      fun e2 h2 => by rw [hi] at h2; simp at h2,
      fun e2 h2 => by rw [hi] at h2; simp at h2⟩
  · exact ⟨by rw [hi]; exact ⟨_, rfl⟩,
      by rw [hi]; exact (by decide :
        ([Stage.auth, Stage.meta, Stage.fileOpen, Stage.bodyFetch,
          Stage.copyBody]).Nodup), hauth, hmeta,
      fun e2 h2 => by rw [hi] at h2; simp at h2,
      fun e2 h2 => by rw [hi] at h2; simp at h2⟩
  · exact ⟨by rw [hi]; exact ⟨_, rfl⟩,
      by rw [hi]; exact (by decide :
        ([Stage.auth, Stage.meta, Stage.fileOpen, Stage.bodyFetch,
          Stage.copyBody, Stage.verify]).Nodup), hauth, hmeta,
      fun e2 h2 => by rw [hi] at h2; simp at h2,
      fun e2 h2 => by rw [hi] at h2; simp at h2⟩
  · exact ⟨by rw [hi]; exact ⟨_, rfl⟩,
      by rw [hi]; exact (by decide :
        ([Stage.auth, Stage.meta, Stage.fileOpen, Stage.bodyFetch,
          Stage.copyBody, Stage.verify]).Nodup), hauth, hmeta,
      fun e2 h2 => by rw [hi] at h2; simp at h2,
      fun e2 h2 => by rw [hi] at h2; simp at h2⟩

theorem c7_linear_stage_machine_witness :
    invoke envA = (.failed (.AuthError .MissingNonceHeader), [.stage .auth]) :=
  (c7_linear_stage_machine envA).2.2.1 .MissingNonceHeader (by decide)

/-- C8: the download action itself fixes the output path — every file
it opens in any environment is the hard-coded `"downloaded.zip"` of
line 67; the caller-facing `--output` option declared by the CLI has no
input into `invoke` at all. -/
theorem c8_output_path_hardcoded (env : Env) (p : String)
    (h : Ev.fileOpened p ∈ (invoke env).2) : p = "downloaded.zip" := by
  rcases invoke_cases env with
      ⟨e, hi⟩ | ⟨m, tr, htr, hi⟩ | ⟨e, tr, htr, hi⟩ | hi | ⟨m, hi⟩ |
      ⟨len, k2, hcl, hc, hi⟩ | ⟨len, k2, w2, hcl, hc, hv, hi⟩ |
      ⟨len, k2, w2, hcl, hc, hv, hi⟩ <;>
    rw [hi] at h
  · simp at h
  · rcases htr with rfl | rfl <;> simp at h
  · rcases htr with rfl | rfl <;> simp at h
  · simp at h
  · simp at h; exact h
  · simp at h; exact h
  · simp at h; exact h
  · simp at h; exact h

theorem c8_output_path_hardcoded_witness :
    Ev.fileOpened "downloaded.zip" ∈ (invoke envS).2 ∧
    "downloaded.zip" = "downloaded.zip" :=
  ⟨by decide, c8_output_path_hardcoded envS "downloaded.zip" (by decide)⟩

/-- C9: the metadata-stage nonce extraction behaves exactly as the
auth-stage extraction of `fetch_auth_nonce`: on every header state it
yields the matching `MetaError` classification or the same decoded
nonce bytes. -/
theorem c9_meta_nonce_extraction_matches_auth (h : Option (List (List Nat))) :
    metaNonceExtract h = (authNonceExtract h).mapError authToMetaError := by
  cases h with
  | none => rfl
  | some raw =>
    rcases hro : rawOne raw with _ | line
    · simp [metaNonceExtract, authNonceExtract, hro, Except.mapError,
        authToMetaError]
    · cases hv : utf8Valid line with
      | false =>
        simp [metaNonceExtract, authNonceExtract, hro, hv, Except.mapError,
          authToMetaError]
      | true =>
        rcases hsk : skipOneNext (splitTerminator 32 line) with _ | tok
        · simp [metaNonceExtract, authNonceExtract, hro, hv, hsk,
            Except.mapError, authToMetaError]
        · rcases hb : b64Decode tok with _ | n <;>
            simp [metaNonceExtract, authNonceExtract, hro, hv, hsk, hb,
              Except.mapError, authToMetaError]

/-- C10: whenever `invoke` returns cleanly, the declared content length
was present, the whole body stream was pushed through the writer (its
bytes are the concatenation of all chunks and fill the declared
length), the reporter's `start(len)` precedes the copy and `finish()`
follows it in the trace, and the writer verified successfully. -/
theorem c10_ok_means_full_copy_and_verified (env : Env)
    (h : (invoke env).1 = .ok) :
    ∃ pre len w2,
      env.contentLength = some len ∧
      w2.bytes = env.bodyChunks.flatten ∧
      w2.len = len ∧
      w2.bytes.length = w2.len ∧
      verified env.aead w2 = true ∧
      (invoke env).2 = pre ++ [.start len, .stage .copyBody,
        .copied w2.bytes.length, .finish, .stage .verify, .verifiedEv true] := by
  rcases invoke_cases env with
      ⟨e, hi⟩ | ⟨m, tr, htr, hi⟩ | ⟨e, tr, htr, hi⟩ | hi | ⟨m, hi⟩ |
      ⟨len, k2, hcl, hc, hi⟩ | ⟨len, k2, w2, hcl, hc, hv, hi⟩ |
      ⟨len, k2, w2, hcl, hc, hv, hi⟩
  · rw [hi] at h; simp at h
  · rw [hi] at h; simp at h
  · rw [hi] at h; simp at h
  · rw [hi] at h; simp at h
  · rw [hi] at h; simp at h
  · rw [hi] at h; simp at h
  · obtain ⟨hb, hlen, -, -⟩ :=
      copyAll_bytes env.bodyChunks (create_file_writer len k2) w2 hc
    have hb2 : w2.bytes = env.bodyChunks.flatten := by
      simpa [create_file_writer] using hb
    have hlen2 : w2.len = len := by
      simpa [create_file_writer] using hlen
    have hfull : w2.bytes.length = w2.len := by
      have hv2 := hv
      unfold verified at hv2
      exact of_decide_eq_true ((Bool.and_eq_true _ _).mp hv2).1
    exact ⟨[.stage .auth, .stage .meta, .usedMetaIV zeroIV, .stage .fileOpen,
        .fileOpened "downloaded.zip", .stage .bodyFetch], len, w2,
      hcl, hb2, hlen2, hfull, hv, by rw [hi]; rfl⟩
  · rw [hi] at h; simp at h

theorem c10_ok_means_full_copy_and_verified_witness :
    (invoke envS).1 = .ok ∧
    ∃ pre len w2,
      envS.contentLength = some len ∧
      w2.bytes = envS.bodyChunks.flatten ∧
      w2.len = len ∧
      w2.bytes.length = w2.len ∧
      verified envS.aead w2 = true ∧
      (invoke envS).2 = pre ++ [.start len, .stage .copyBody,
        .copied w2.bytes.length, .finish, .stage .verify, .verifiedEv true] :=
  ⟨rfl, c10_ok_means_full_copy_and_verified envS rfl⟩

end Ffsend
